import Mathlib

/-!
Verification of the numeric core of `NumberPicker.js` (react-widgets):
the clamp/step engine, the string-exponent-shift rounding routine, the
press-and-hold repeat timer (`createInterval`), and the mouse-handler
orchestration (`handleMouseDown` / `handleMouseUp` / `handleChange`).

JavaScript numbers are modelled by `JsNum` (an exact rational plus the
IEEE-754 special values NaN, +Infinity, -Infinity); a value that may also
be `null`/`undefined` or the empty string `''` is a `JsValue`.  `Math.min`,
`Math.max`, `+`, unary `-` and strict equality `===` are embedded with
their JS semantics on this domain (NaN is absorbing for arithmetic and
never strictly equal to anything, including itself).
-/

namespace NumberPicker

/-- A JavaScript number: NaN, -Infinity, +Infinity, or a finite value
(finite doubles are modelled as exact rationals). -/
inductive JsNum where
  | nan : JsNum
  | negInf : JsNum
  | posInf : JsNum
  | num : ℚ → JsNum
deriving DecidableEq, Repr

/-- A JavaScript value as it reaches `clamp`: `null`/`undefined`
(merged, since the source only tests `== null`), the empty string `''`,
or a number. -/
inductive JsValue where
  | null : JsValue
  | emptyStr : JsValue
  | num : JsNum → JsValue
deriving DecidableEq, Repr

/-- JS `Math.min`: NaN absorbs, otherwise the smaller argument
(-Infinity dominates, +Infinity is neutral). -/
def jsMin : JsNum → JsNum → JsNum
  | .nan, _ => .nan
  | _, .nan => .nan
  | .negInf, _ => .negInf
  | _, .negInf => .negInf
  | .posInf, b => b
  | a, .posInf => a
  | .num a, .num b => .num (min a b)

/-- JS `Math.max`: NaN absorbs, otherwise the larger argument
(+Infinity dominates, -Infinity is neutral). -/
def jsMax : JsNum → JsNum → JsNum
  | .nan, _ => .nan
  | _, .nan => .nan
  | .posInf, _ => .posInf
  | _, .posInf => .posInf
  | .negInf, b => b
  | a, .negInf => a
  | .num a, .num b => .num (max a b)

/-- JS `+` on numbers: NaN absorbs, Infinity + (-Infinity) is NaN. -/
def jsAdd : JsNum → JsNum → JsNum
  | .nan, _ => .nan
  | _, .nan => .nan
  | .posInf, .negInf => .nan
  | .negInf, .posInf => .nan
  | .posInf, _ => .posInf
  | _, .posInf => .posInf
  | .negInf, _ => .negInf
  | _, .negInf => .negInf
  | .num a, .num b => .num (a + b)

/-- JS unary minus on numbers. -/
def jsNeg : JsNum → JsNum
  | .nan => .nan
  | .posInf => .negInf
  | .negInf => .posInf
  | .num a => .num (-a)

/-- JS strict equality `===` on numbers: NaN is not equal to anything,
including itself. -/
def jsStrictEq : JsNum → JsNum → Bool
  | .nan, _ => false
  | _, .nan => false
  | .negInf, .negInf => true
  | .posInf, .posInf => true
  | .num a, .num b => a == b
  | _, _ => false

/-- JS strict equality `===` lifted to `JsValue` (`null === null`,
`'' === ''`, numbers via `jsStrictEq`; distinct kinds never equal). -/
def jsValueStrictEq : JsValue → JsValue → Bool
  | .null, .null => true
  | .emptyStr, .emptyStr => true
  | .num a, .num b => jsStrictEq a b
  | _, _ => false

/-- Embeds `clamp(value, min, max)` (NumberPicker.js lines 42-49):

    max = max == null ? Infinity : max
    min = min == null ? -Infinity : min
    if (value == null || value === '') return null
    return Math.max(Math.min(value, max), min)

`none` for `min`/`max` models a `null`/`undefined` bound. -/
def clamp (value : JsValue) (mi ma : Option JsNum) : JsValue :=
  let ma := ma.getD .posInf
  let mi := mi.getD .negInf
  match value with
  | .null => .null
  | .emptyStr => .null
  | .num v => .num (jsMax (jsMin v ma) mi)

/-- JS `Math.round`: round to the nearest integer, ties toward +Infinity
(`Math.round(100.5) = 101`, `Math.round(-100.5) = -100`). -/
def mathRound (x : ℚ) : ℤ := Int.floor (x + 1/2)

/-- Left-pads a digit string with zeros to length `p` (how `toFixed`
renders a fractional part of fewer than `p` digits). -/
def padZeros (s : String) (p : ℕ) : String :=
  String.mk (List.replicate (p - s.length) '0') ++ s

/-- JS `n.toFixed(p)` for the number `k / 10^p` (`k` an integer): a sign,
the integer part, and exactly `p` fractional digits. -/
def toFixedScaled (k : ℤ) (p : ℕ) : String :=
  let sign := if k < 0 then "-" else ""
  let a := k.natAbs
  if p = 0 then sign ++ toString a
  else sign ++ toString (a / 10 ^ p) ++ "." ++ padZeros (toString (a % 10 ^ p)) p

/-- Embeds `round(value, precision)` (NumberPicker.js lines 344-356):

    value = ('' + value).split('e')
    value = Math.round(+(value[0] + 'e' + (value[1] ? +value[1] + precision : precision)))
    value = ('' + value).split('e')
    value = +(value[0] + 'e' + (value[1] ? +value[1] - precision : -precision))
    return value.toFixed(precision)

Appending `'e' + precision` to the decimal numeral of `value` moves the
decimal point `precision` digits to the right, i.e. multiplies the printed
decimal by `10^precision` exactly (both branches of `value[1] ?` perform
this same shift, on plain and on scientific-format numerals); the model
therefore scales the exact rational by `10^precision`, applies
`Math.round`, and formats the shifted-back result with `toFixed`. -/
def round (value : ℚ) (precision : ℕ) : String :=
  toFixedScaled (mathRound (value * 10 ^ precision)) precision

/-- Modelled from the spec: rounding `value` to `precision` fractional
digits with round-half-away-from-zero semantics (a value exactly halfway
between two representable results moves away from zero, for both positive
and negative inputs), followed by the same `toFixed` formatting. -/
def roundHalfAwayFromZero (value : ℚ) (precision : ℕ) : String :=
  toFixedScaled
    (if 0 ≤ value * 10 ^ precision
      then Int.floor (value * 10 ^ precision + 1/2)
      else -Int.floor (-(value * 10 ^ precision) + 1/2))
    precision

/-- JS `(value || 0)`: a falsy current value — `null`/`undefined` (the
`none` case), `NaN`, or `0` — is replaced by `0` (NumberPicker.js
line 322: `var value = (this.props.value || 0) + amount`). -/
def jsOrZero : Option JsNum → JsNum
  | none => .num 0
  | some .nan => .num 0
  | some (.num q) => .num q
  | some v => v

/-- The value computed and returned by `step(amount, event)`
(NumberPicker.js lines 321-331): `(this.props.value || 0) + amount`.
This unrounded sum is what `step` returns to `handleMouseDown` for the
bound check; rounding only affects the value reported to `handleChange`. -/
def stepReturn (value : Option JsNum) (amount : JsNum) : JsNum :=
  jsAdd (jsOrZero value) amount

/-- The raw value `step` passes to `handleChange`: `round(value, decimals)`
when a precision is available (a string), the unrounded sum otherwise
(`this.handleChange(decimals != null ? round(value, decimals) : value)`).
`decimals` already merges the `precision` prop with the localizer-derived
fallback (`precision != null ? precision : numberLocalizer.precision(...)`). -/
def stepReported (value : Option JsNum) (amount : JsNum) (decimals : Option ℕ) :
    String ⊕ JsNum :=
  match decimals with
  | some p =>
    match stepReturn value amount with
    | .num q => .inl (round q p)
    | v => .inr v
  | none => .inr (stepReturn value amount)

/-- The source's `increment(event)` calls `this.step(this.props.step, event)`
(NumberPicker.js lines 313-315); its return value. -/
def incrementReturn (value : Option JsNum) (stepProp : JsNum) : JsNum :=
  stepReturn value stepProp

/-- The source's `decrement(event)` calls `this.step(-this.props.step, event)`
(NumberPicker.js lines 317-319); its return value. -/
def decrementReturn (value : Option JsNum) (stepProp : JsNum) : JsNum :=
  stepReturn value (jsNeg stepProp)

/-! ### The repeat timer (`createInterval`, NumberPicker.js lines 27-40)

    function createInterval(callback) {
      let fn
      var id, cancel = () => clearTimeout(id)
      id = setTimeout(
        (fn = () => {
          id = setTimeout(fn, 35)
          callback() //fire after everything in case the user cancels on the first call
        }),
        500
      )
      return cancel
    }

The single mutable `id` always holds the one queued timeout; the host
event loop is modelled discretely: time is in milliseconds, callbacks take
zero time, and each `tick` is the event loop firing the queued timeout
(running `fn`: first `id = setTimeout(fn, 35)` re-queues, then
`callback()` runs and may invoke the cancel handle during its own
invocation). `cancel` is `clearTimeout(id)`: it clears whatever timeout is
currently queued. -/

/-- State of one `createInterval` sequence: the current time, the fire
time of the queued timeout held by `id` (`none` once cleared), and the
times at which `callback` has been invoked so far. -/
structure IntervalState where
  now : ℕ
  pending : Option ℕ
  fires : List ℕ
deriving DecidableEq, Repr

/-- The state right after `createInterval(callback)` returns: the clock
starts at 0 and `id` holds a timeout due at 500ms; no invocations yet. -/
def intervalStart : IntervalState :=
  { now := 0, pending := some 500, fires := [] }

/-- The `id = setTimeout(fn, 35)` line of `fn`: when the queued timeout
fires at time `t`, the next tick is queued for `t + 35` — before
`callback()` is invoked. -/
def reschedule (s : IntervalState) : IntervalState :=
  match s.pending with
  | none => s
  | some t => { s with now := t, pending := some (t + 35) }

/-- The cancel handle: `() => clearTimeout(id)` clears whatever timeout
`id` currently holds. -/
def cancel (s : IntervalState) : IntervalState :=
  { s with pending := none }

/-- One tick of the event loop: if a timeout is queued at `t`, `fn` runs:
it re-queues the next tick at `t + 35` first, then invokes `callback`
(recorded in `fires`); `cancelDuring` says whether this invocation of the
callback itself calls the cancel handle. With nothing queued, nothing
happens. -/
def tick (s : IntervalState) (cancelDuring : Bool) : IntervalState :=
  match s.pending with
  | none => s
  | some t =>
    let s1 := reschedule s
    let s2 := { s1 with fires := s1.fires ++ [t] }
    if cancelDuring then cancel s2 else s2

/-- Runs `n` ticks of the event loop with a callback that never cancels. -/
def runTicks : ℕ → IntervalState
  | 0 => intervalStart
  | n + 1 => tick (runTicks n) false

/-- Ticks of the event loop driven by a list of flags, one per tick,
saying whether the callback cancels during that invocation. -/
def runFlagged (s : IntervalState) : List Bool → IntervalState
  | [] => s
  | c :: cs => runFlagged (tick s c) cs

/-! ### Component-level orchestration (`handleMouseDown`, `handleMouseUp`,
`handleChange`, NumberPicker.js lines 161-218) -/

/-- The two spinner buttons (`directions.UP` / `directions.DOWN`). -/
inductive Direction where
  | up : Direction
  | down : Direction
deriving DecidableEq, Repr

/-- The props the numeric core reads: `value` (default `null`), `min`
(default `-Infinity`), `max` (default `Infinity`), `step` (default `1`),
and the merged precision (`precision` prop or localizer fallback). -/
structure PickerProps where
  min : JsNum
  max : JsNum
  step : JsNum
  decimals : Option ℕ
deriving DecidableEq, Repr

/-- The `value` prop (an `Option JsNum`) seen as the `JsValue` it is in JS. -/
def toJsValue : Option JsNum → JsValue
  | none => .null
  | some n => .num n

/-- Embeds `handleChange(rawValue)` (NumberPicker.js lines 204-218):

    let nextValue = clamp(rawValue, min, max)
    if (lastValue !== nextValue) notify(onChange, [nextValue, ...])

Returns `some payload` when `onChange` is notified (exactly once, with the
clamped value) and `none` when it is not. -/
def handleChange (rawValue : JsValue) (lastValue : Option JsNum)
    (mi ma : JsNum) : Option JsValue :=
  let nextValue := clamp rawValue (some mi) (some ma)
  if jsValueStrictEq (toJsValue lastValue) nextValue then none else some nextValue

/-- The mutable per-component state the mouse handlers touch: the `value`
prop (fed back through `onChange` in controlled usage), whether
`this._cancelRepeater` holds a handle, and how many interval sequences
have been started and not canceled (a ghost counter for the
one-active-timer invariant). -/
structure HoldState where
  value : Option JsNum
  cancelRepeater : Bool
  live : ℕ
deriving DecidableEq, Repr

/-- Embeds `handleMouseUp` (NumberPicker.js lines 180-183):

    this._cancelRepeater && this._cancelRepeater()
    this._cancelRepeater = null

Invoking the stored handle cancels its interval sequence (`live`
decreases) and the field is cleared. -/
def handleMouseUpM (s : HoldState) : HoldState :=
  { s with cancelRepeater := false,
           live := if s.cancelRepeater then s.live - 1 else s.live }

/-- Embeds `handleMouseDown(direction)` (NumberPicker.js lines 161-178):

    let method = direction === directions.UP ? this.increment : this.decrement
    let value = method.call(this, event),
      atTop = direction === directions.UP && value === max,
      atBottom = direction === directions.DOWN && value === min
    if (atTop || atBottom) this.handleMouseUp()
    else if (!this._cancelRepeater) {
      this._cancelRepeater = createInterval(() => {
        this.handleMouseDown(direction, event)
      })
    }

`increment`/`decrement` call `step`, whose `handleChange` notification is
applied to the `value` prop (the controlled-component feedback loop);
the bound check compares `step`'s unrounded return against the prop with
strict equality. In the model `decimals` is taken as absent, so the raw
value reaching `handleChange` is the numeric sum itself. -/
def handleMouseDownM (p : PickerProps) (dir : Direction) (s : HoldState) :
    HoldState :=
  let amount := if dir = Direction.up then p.step else jsNeg p.step
  let value := stepReturn s.value amount
  let value1 :=
    match handleChange (.num value) s.value p.min p.max with
    | some (.num n) => some n
    | some _ => s.value
    | none => s.value
  let atTop := dir = Direction.up ∧ jsStrictEq value p.max = true
  let atBottom := dir = Direction.down ∧ jsStrictEq value p.min = true
  if atTop ∨ atBottom then handleMouseUpM { s with value := value1 }
  else if !s.cancelRepeater then
    { value := value1, cancelRepeater := true, live := s.live + 1 }
  else { s with value := value1 }

/-- A press/release event stream driving the mouse handlers (a timer tick
re-enters `handleMouseDown` with the held direction, so it is also a
`press` event). -/
inductive PressEvent where
  | press : Direction → PressEvent
  | release : PressEvent
deriving DecidableEq, Repr

/-- Applies one event to the component state. -/
def applyEvent (p : PickerProps) (s : HoldState) : PressEvent → HoldState
  | .press dir => handleMouseDownM p dir s
  | .release => handleMouseUpM s

/-- Runs an event stream from a given state. -/
def runEvents (p : PickerProps) (s : HoldState) : List PressEvent → HoldState
  | [] => s
  | e :: es => runEvents p (applyEvent p s e) es

/-- The clamped value `handleChange` computes for one increment press
(the value the component reports): `clamp(step(value, +step), min, max)`. -/
def reportedOnIncrement (p : PickerProps) (value : Option JsNum) : JsValue :=
  clamp (.num (stepReturn value p.step)) (some p.min) (some p.max)

/-- The end-to-end scenario props of the spec: range `[0, 10]`, step `1`,
no precision. -/
def scenarioProps : PickerProps :=
  { min := .num 0, max := .num 10, step := .num 1, decimals := none }

/-! ## Helper lemmas -/

theorem jsMin_nan_left (b : JsNum) : jsMin .nan b = .nan := by cases b <;> rfl

theorem jsMax_nan_left (b : JsNum) : jsMax .nan b = .nan := by cases b <;> rfl

theorem jsAdd_nan_right (a : JsNum) : jsAdd a .nan = .nan := by cases a <;> rfl

theorem reschedule_pending {s : IntervalState} {t : ℕ} (h : s.pending = some t) :
    (reschedule s).pending = some (t + 35) := by
  obtain ⟨n, p, l⟩ := s
  cases p with
  | none => simp at h
  | some u => injection h with h; subst h; rfl

theorem tick_proj {s : IntervalState} {t : ℕ} (h : s.pending = some t) (c : Bool) :
    (tick s c).now = t ∧ (tick s c).fires = s.fires ++ [t] ∧
    (tick s c).pending = (if c then none else some (t + 35)) := by
  obtain ⟨n, p, l⟩ := s
  cases p with
  | none => simp at h
  | some u =>
    injection h with h; subst h
    cases c <;> exact ⟨rfl, rfl, rfl⟩

theorem tick_true_eq_cancel {s : IntervalState} {t : ℕ} (h : s.pending = some t) :
    tick s true = cancel (tick s false) := by
  obtain ⟨n, p, l⟩ := s
  cases p with
  | none => simp at h
  | some u => injection h with h; subst h; rfl

theorem tick_none {s : IntervalState} (h : s.pending = none) (c : Bool) :
    tick s c = s := by
  obtain ⟨n, p, l⟩ := s
  cases p with
  | none => cases c <;> rfl
  | some u => simp at h

theorem runTicks_pending (n : ℕ) : (runTicks n).pending = some (500 + 35 * n) := by
  induction n with
  | zero => rfl
  | succ n ih =>
    show (tick (runTicks n) false).pending = some (500 + 35 * (n + 1))
    rw [(tick_proj ih false).2.2]
    simp [Nat.mul_succ, Nat.add_assoc]

theorem runTicks_fires (n : ℕ) :
    (runTicks n).fires = (List.range n).map (fun k => 500 + 35 * k) := by
  induction n with
  | zero => rfl
  | succ n ih =>
    show (tick (runTicks n) false).fires = _
    rw [(tick_proj (runTicks_pending n) false).2.1, ih, List.range_succ]
    simp

theorem handleMouseUpM_preserves {s : HoldState}
    (h : s.live = if s.cancelRepeater then 1 else 0) :
    (handleMouseUpM s).live = if (handleMouseUpM s).cancelRepeater then 1 else 0 := by
  cases hc : s.cancelRepeater with
  | true => rw [hc] at h; simp at h; simp [handleMouseUpM, hc, h]
  | false => rw [hc] at h; simp at h; simp [handleMouseUpM, hc, h]

theorem handleMouseDownM_shape (p : PickerProps) (dir : Direction) (s : HoldState) :
    ((handleMouseDownM p dir s).cancelRepeater = false ∧
      (handleMouseDownM p dir s).live
        = (if s.cancelRepeater then s.live - 1 else s.live)) ∨
    (s.cancelRepeater = false ∧ (handleMouseDownM p dir s).cancelRepeater = true ∧
      (handleMouseDownM p dir s).live = s.live + 1) ∨
    ((handleMouseDownM p dir s).cancelRepeater = s.cancelRepeater ∧
      (handleMouseDownM p dir s).live = s.live) := by
  cases dir with
  | up =>
    dsimp only [handleMouseDownM]
    rw [if_pos rfl]
    split
    · exact Or.inl ⟨rfl, rfl⟩
    · split
      · rename_i hb
        exact Or.inr (Or.inl ⟨by simpa using hb, rfl, rfl⟩)
      · exact Or.inr (Or.inr ⟨rfl, rfl⟩)
  | down =>
    dsimp only [handleMouseDownM]
    rw [if_neg (by decide : ¬(Direction.down = Direction.up))]
    split
    · exact Or.inl ⟨rfl, rfl⟩
    · split
      · rename_i hb
        exact Or.inr (Or.inl ⟨by simpa using hb, rfl, rfl⟩)
      · exact Or.inr (Or.inr ⟨rfl, rfl⟩)

theorem handleMouseDownM_preserves (p : PickerProps) (dir : Direction)
    {s : HoldState} (h : s.live = if s.cancelRepeater then 1 else 0) :
    (handleMouseDownM p dir s).live
      = if (handleMouseDownM p dir s).cancelRepeater then 1 else 0 := by
  rcases handleMouseDownM_shape p dir s with ⟨hc, hl⟩ | ⟨hs, hc, hl⟩ | ⟨hc, hl⟩
  · rw [hc, hl]
    cases hs : s.cancelRepeater with
    | true => rw [hs] at h; simp at h; simp [hs, h]
    | false => rw [hs] at h; simp at h; simp [hs, h]
  · rw [hc, hl]
    rw [hs] at h; simp at h; simp [h]
  · rw [hc, hl, h]

theorem runEvents_preserves (p : PickerProps) (evs : List PressEvent) :
    ∀ s : HoldState, s.live = (if s.cancelRepeater then 1 else 0) →
      (runEvents p s evs).live
        = if (runEvents p s evs).cancelRepeater then 1 else 0 := by
  induction evs with
  | nil => exact fun s h => h
  | cons e es ih =>
    intro s h
    show (runEvents p (applyEvent p s e) es).live = _
    refine ih (applyEvent p s e) ?_
    cases e with
    | press dir => exact handleMouseDownM_preserves p dir h
    | release => exact handleMouseUpM_preserves h

/-! ## Claim theorems -/

/-- C1: for every numeric value `v`, `clamp(v, min, max)` equals
`Math.max(Math.min(v, effectiveMax), effectiveMin)` where a null max is
treated as +Infinity and a null min as -Infinity; and for every min and
max, an absent (null/undefined) or empty-string value yields the absent
sentinel `null`, never the number zero. -/
theorem clamp_contract :
    (∀ (v : JsNum) (mi ma : Option JsNum),
      clamp (.num v) mi ma
        = .num (jsMax (jsMin v (ma.getD .posInf)) (mi.getD .negInf))) ∧
    (∀ v mi ma : ℚ,
      clamp (.num (.num v)) (some (.num mi)) (some (.num ma))
        = .num (.num (max (min v ma) mi))) ∧
    (∀ mi ma : Option JsNum,
      clamp .null mi ma = .null ∧ clamp .emptyStr mi ma = .null) ∧
    (∀ mi ma : Option JsNum,
      (clamp .null mi ma == JsValue.num (.num 0)) = false ∧
      (clamp .emptyStr mi ma == JsValue.num (.num 0)) = false) := by
  refine ⟨fun v mi ma => rfl, fun v mi ma => rfl,
    fun mi ma => ⟨rfl, rfl⟩, fun mi ma => ⟨?_, ?_⟩⟩ <;>
    simp [clamp]

/-- C8 counterexample: with bounds -Infinity and +Infinity, `clamp` is not
the identity on the empty string: `clamp('', -Infinity, Infinity)` is
`null`, not `''`. -/
theorem clamp_identity_counterexample :
    clamp .emptyStr (some .negInf) (some .posInf) = .null ∧
    (clamp .emptyStr (some .negInf) (some .posInf) == JsValue.emptyStr) = false := by
  exact ⟨rfl, by decide⟩

/-- C8 (amended): with bounds -Infinity and +Infinity, `clamp` is the
identity on every input except the empty string (absent values and all
numbers, NaN and the infinities included, are returned unchanged); the
empty string is mapped to the absent sentinel `null`. -/
theorem clamp_identity_on_infinite_bounds :
    (∀ v : JsValue, v ≠ .emptyStr → clamp v (some .negInf) (some .posInf) = v) ∧
    clamp .emptyStr (some .negInf) (some .posInf) = .null := by
  refine ⟨fun v h => ?_, rfl⟩
  cases v with
  | null => rfl
  | emptyStr => exact absurd rfl h
  | num n => cases n <;> rfl

/-- C8 witness: the amended identity at the concrete numeric input 5. -/
theorem clamp_identity_witness :
    clamp (.num (.num 5)) (some .negInf) (some .posInf) = .num (.num 5) :=
  clamp_identity_on_infinite_bounds.1 (.num (.num 5)) (by decide)

/-- C7 counterexample: a NaN current value does not propagate through
`step`: `(this.props.value || 0)` treats NaN as falsy and replaces it by
0, so `step` with current value NaN and amount 1 returns 1, not NaN. -/
theorem step_nan_counterexample :
    stepReturn (some .nan) (.num 1) = .num 1 ∧
    (stepReturn (some .nan) (.num 1) == JsNum.nan) = false := by
  refine ⟨?_, ?_⟩ <;> simp [stepReturn, jsOrZero, jsAdd]

/-- C7 (amended): no operation of the clamp/step engine raises an
exception (both are total functions); NaN propagates as NaN through
`clamp` and through `step`'s amount argument, but a NaN current value in
`step` is coerced to 0 by the `(value || 0)` falsy default, so
`step(NaN, a)` behaves exactly like `step(absent, a)` and returns `a`
when `a` is finite. -/
theorem engine_nan_behavior :
    (∀ mi ma : Option JsNum, clamp (.num .nan) mi ma = .num .nan) ∧
    (∀ v : Option JsNum, stepReturn v .nan = .nan) ∧
    (∀ a : JsNum, stepReturn (some .nan) a = stepReturn none a) ∧
    (∀ q : ℚ, stepReturn (some .nan) (.num q) = .num q) := by
  refine ⟨fun mi ma => ?_, fun v => ?_, fun a => rfl, fun q => ?_⟩
  · simp [clamp, jsMin_nan_left, jsMax_nan_left]
  · simp [stepReturn, jsAdd_nan_right]
  · simp [stepReturn, jsOrZero, jsAdd]

/-- C4: `step(currentValue, amount, precision)` computes
`(currentValue defaulting to 0 when absent) + amount`; with no precision
available the value reported to `handleChange` is the unrounded sum (and
the returned value always is); `step(5, +1) = 6`, `step(5, -1) = 4`;
`increment` is `step` with `+step` and `decrement` is `step` with
`-step`. -/
theorem step_contract :
    (∀ a : JsNum, stepReturn none a = jsAdd (.num 0) a) ∧
    (∀ q a : ℚ, stepReturn (some (.num q)) (.num a) = .num (q + a)) ∧
    (∀ (v : Option JsNum) (a : JsNum), stepReported v a none = .inr (stepReturn v a)) ∧
    stepReturn (some (.num 5)) (.num 1) = .num 6 ∧
    stepReturn (some (.num 5)) (.num (-1)) = .num 4 ∧
    (∀ (v : Option JsNum) (s : JsNum), incrementReturn v s = stepReturn v s) ∧
    (∀ (v : Option JsNum) (s : JsNum), decrementReturn v s = stepReturn v (jsNeg s)) := by
  refine ⟨fun a => rfl, fun q a => rfl, fun v a => rfl, ?_, ?_,
    fun v s => rfl, fun v s => rfl⟩ <;>
    · simp [stepReturn, jsOrZero, jsAdd]
      norm_num

/-- C2 counterexample: the rounding routine does not use
round-half-away-from-zero semantics on negative inputs: `Math.round` ties
go toward +Infinity, so rounding -1.005 to 2 digits yields "-1.00"
(toward zero), where half-away-from-zero semantics requires "-1.01". -/
theorem round_neg_half_counterexample :
    round (-1.005 : ℚ) 2 = "-1.00" ∧
    roundHalfAwayFromZero (-1.005 : ℚ) 2 = "-1.01" ∧
    (round (-1.005 : ℚ) 2 == roundHalfAwayFromZero (-1.005 : ℚ) 2) = false := by
  have h1 : mathRound ((-1.005 : ℚ) * 10 ^ 2) = -100 := by
    unfold mathRound; norm_num
  have e1 : round (-1.005 : ℚ) 2 = "-1.00" := by
    unfold round; rw [h1]; decide
  have h2 : (if (0:ℚ) ≤ (-1.005 : ℚ) * 10 ^ 2
      then Int.floor ((-1.005 : ℚ) * 10 ^ 2 + 1/2)
      else -Int.floor (-((-1.005 : ℚ) * 10 ^ 2) + 1/2)) = -101 := by
    norm_num
  have e2 : roundHalfAwayFromZero (-1.005 : ℚ) 2 = "-1.01" := by
    unfold roundHalfAwayFromZero; rw [h2]; decide
  refine ⟨e1, e2, ?_⟩
  rw [e1, e2]; decide

/-- C2 (amended): for every finite value and provided precision `p`, the
rounding routine shifts the decimal point right by `p` digits via the
exponent shift (exact decimal scaling by `10^p`), rounds to the nearest
integer with ties toward +Infinity (JS `Math.round` — this is
half-away-from-zero only for nonnegative inputs; negative halfway values
round toward zero), shifts back, and formats with exactly `p` fractional
digits; on nonnegative values it agrees with round-half-away-from-zero,
and in particular rounding 1.005 to 2 digits yields "1.01", not "1.00". -/
theorem round_contract :
    (∀ (v : ℚ) (p : ℕ),
      round v p = toFixedScaled (mathRound (v * 10 ^ p)) p ∧
      v * 10 ^ p - 1/2 < (mathRound (v * 10 ^ p) : ℚ) ∧
      (mathRound (v * 10 ^ p) : ℚ) ≤ v * 10 ^ p + 1/2) ∧
    (∀ (v : ℚ) (p : ℕ), 0 ≤ v → round v p = roundHalfAwayFromZero v p) ∧
    round (1.005 : ℚ) 2 = "1.01" := by
  refine ⟨fun v p => ⟨rfl, ?_, ?_⟩, fun v p hv => ?_, ?_⟩
  · have h := Int.lt_floor_add_one (v * 10 ^ p + 1/2)
    unfold mathRound
    push_cast at h ⊢
    linarith
  · have h := Int.floor_le (v * 10 ^ p + 1/2)
    unfold mathRound
    push_cast at h ⊢
    linarith
  · have hx : (0:ℚ) ≤ v * 10 ^ p := by positivity
    unfold round roundHalfAwayFromZero mathRound
    rw [if_pos hx]
  · have h1 : mathRound ((1.005 : ℚ) * 10 ^ 2) = 101 := by
      unfold mathRound; norm_num
    unfold round; rw [h1]; decide

/-- C2 witness: the amended agreement with round-half-away-from-zero at
the nonnegative concrete input 1.005 with precision 2. -/
theorem round_contract_witness :
    (0:ℚ) ≤ 1.005 ∧ round (1.005 : ℚ) 2 = roundHalfAwayFromZero (1.005 : ℚ) 2 :=
  ⟨by norm_num, round_contract.2.1 1.005 2 (by norm_num)⟩

/-- C3: starting the repeat timer schedules the callback to fire once
after an initial delay of 500ms and then every 35ms thereafter,
indefinitely until canceled (after `n` uncanceled ticks the callback has
fired at times `500, 535, …, 500 + 35(n-1)` and the next tick is queued
at `500 + 35n`); at each firing the next tick is queued before the
callback is invoked (`reschedule` has already set the pending timeout to
`t + 35` when the callback runs), so a callback that cancels during its
own first invocation stops the already-queued next tick only through the
cancel handle: a canceling tick equals the non-canceling tick followed by
`cancel`. -/
theorem createInterval_schedule :
    (∀ n : ℕ, (runTicks n).fires = (List.range n).map (fun k => 500 + 35 * k)) ∧
    (∀ n : ℕ, (runTicks n).pending = some (500 + 35 * n)) ∧
    (∀ (s : IntervalState) (t : ℕ) (c : Bool), s.pending = some t →
      (reschedule s).pending = some (t + 35) ∧
      (tick s c).fires = s.fires ++ [t] ∧
      (tick s false).pending = some (t + 35) ∧
      (tick s true).pending = none ∧
      tick s true = cancel (tick s false)) := by
  refine ⟨runTicks_fires, runTicks_pending, fun s t c h => ?_⟩
  refine ⟨reschedule_pending h, (tick_proj h c).2.1, ?_, ?_, tick_true_eq_cancel h⟩
  · simpa using (tick_proj h false).2.2
  · simpa using (tick_proj h true).2.2

/-- C3 witness: the schedule facts at the freshly started timer
(`pending` at 500ms, first fire at 500ms, next tick queued at 535ms, a
first-call cancel leaves nothing queued). -/
theorem createInterval_schedule_witness :
    (reschedule intervalStart).pending = some (500 + 35) ∧
    (tick intervalStart true).fires = intervalStart.fires ++ [500] ∧
    (tick intervalStart false).pending = some (500 + 35) ∧
    (tick intervalStart true).pending = none ∧
    tick intervalStart true = cancel (tick intervalStart false) :=
  createInterval_schedule.2.2 intervalStart 500 true rfl

/-- C6: invoking the cancel handle stops all future firings (a state with
nothing queued is a fixed point of every further tick); calling it when
already idle is a no-op; calling it more than once is safe (idempotent);
and cancelling before the initial 500ms delay has elapsed results in
exactly zero invocations of the callback. -/
theorem cancel_contract :
    (∀ s : IntervalState, cancel (cancel s) = cancel s) ∧
    (∀ s : IntervalState, s.pending = none → cancel s = s) ∧
    (∀ (s : IntervalState) (c : Bool), s.pending = none → tick s c = s) ∧
    (∀ (s : IntervalState) (cs : List Bool), s.pending = none →
      runFlagged s cs = s) ∧
    (∀ cs : List Bool, (runFlagged (cancel intervalStart) cs).fires = []) := by
  have hfix : ∀ (s : IntervalState) (cs : List Bool), s.pending = none →
      runFlagged s cs = s := by
    intro s cs
    induction cs with
    | nil => intro _; rfl
    | cons c cs ih =>
      intro h
      show runFlagged (tick s c) cs = s
      rw [tick_none h c]
      exact ih h
  refine ⟨fun s => rfl, fun s h => ?_, fun s c h => tick_none h c, hfix, fun cs => ?_⟩
  · obtain ⟨n, p, l⟩ := s
    cases p with
    | none => rfl
    | some u => simp at h
  · rw [hfix (cancel intervalStart) cs rfl]; rfl

/-- C6 witness: the cancel facts at the concrete state reached by
cancelling immediately after `start` (before the 500ms delay): cancelling
again is a no-op, a due tick does nothing, and two further event-loop
steps produce zero callback invocations. -/
theorem cancel_contract_witness :
    cancel (cancel intervalStart) = cancel intervalStart ∧
    tick (cancel intervalStart) true = cancel intervalStart ∧
    runFlagged (cancel intervalStart) [true, false] = cancel intervalStart :=
  ⟨cancel_contract.2.1 (cancel intervalStart) rfl,
   cancel_contract.2.2.1 (cancel intervalStart) true rfl,
   cancel_contract.2.2.2.1 (cancel intervalStart) [true, false] rfl⟩

/-- C9: `handleChange` notifies `onChange` if and only if the clamped
next value differs (JS strict inequality `!==`) from the current `value`
prop; when it does not differ, no notification is emitted, and when it
does, `onChange` is invoked exactly once, with the clamped value as its
payload. -/
theorem handleChange_notifies_iff :
    ∀ (raw : JsValue) (last : Option JsNum) (mi ma : JsNum),
      (handleChange raw last mi ma = none ↔
        jsValueStrictEq (toJsValue last) (clamp raw (some mi) (some ma)) = true) ∧
      (jsValueStrictEq (toJsValue last) (clamp raw (some mi) (some ma)) = false →
        handleChange raw last mi ma = some (clamp raw (some mi) (some ma))) := by
  intro raw last mi ma
  cases hb : jsValueStrictEq (toJsValue last) (clamp raw (some mi) (some ma)) with
  | false => simp [handleChange, hb]
  | true => simp [handleChange, hb]

/-- C9 witness: with range `[0, 10]` and current value 9, the raw value
10 clamps to 10, differs from 9, and is notified exactly once with
payload 10; the nested hypothesis is discharged at this input. -/
theorem handleChange_notifies_witness :
    jsValueStrictEq (toJsValue (some (.num 9)))
        (clamp (.num (.num 10)) (some (.num 0)) (some (.num 10))) = false ∧
    handleChange (.num (.num 10)) (some (.num 9)) (.num 0) (.num 10)
        = some (clamp (.num (.num 10)) (some (.num 0)) (some (.num 10))) := by
  have hfalse : jsValueStrictEq (toJsValue (some (.num 9)))
      (clamp (.num (.num 10)) (some (.num 0)) (some (.num 10))) = false := by
    norm_num [clamp, jsMin, jsMax, jsValueStrictEq, jsStrictEq, toJsValue,
      min_def, max_def]
  exact ⟨hfalse,
    (handleChange_notifies_iff (.num (.num 10)) (some (.num 9)) (.num 0) (.num 10)).2 hfalse⟩

/-- C5: with range `[0, 10]`, step 1 and current value 9, three
consecutive increment presses report the clamped values 10, 10, 10
(never exceeding max: the first press steps 9 to 10 and, having landed
exactly on max, stops the repeat timer); and in general, whenever a step
lands (strict equality) exactly on `max` for an increment press or on
`min` for a decrement press, `handleMouseDown` runs `handleMouseUp`: the
stored cancel handle is invoked and cleared and no new interval is
started, so no further ticks are scheduled past the bound. -/
theorem increment_scenario_and_bound_stop :
    reportedOnIncrement scenarioProps (some (.num 9)) = .num (.num 10) ∧
    handleMouseDownM scenarioProps .up ⟨some (.num 9), false, 0⟩
      = ⟨some (.num 10), false, 0⟩ ∧
    reportedOnIncrement scenarioProps (some (.num 10)) = .num (.num 10) ∧
    handleMouseDownM scenarioProps .up ⟨some (.num 10), true, 1⟩
      = ⟨some (.num 10), true, 1⟩ ∧
    (∀ (p : PickerProps) (dir : Direction) (s : HoldState),
      ((dir = Direction.up ∧ jsStrictEq (stepReturn s.value p.step) p.max = true) ∨
       (dir = Direction.down ∧
         jsStrictEq (stepReturn s.value (jsNeg p.step)) p.min = true)) →
      (handleMouseDownM p dir s).cancelRepeater = false ∧
      (handleMouseDownM p dir s).live
        = (if s.cancelRepeater then s.live - 1 else s.live)) := by
  refine ⟨?_, ?_, ?_, ?_, fun p dir s h => ?_⟩
  · norm_num [reportedOnIncrement, stepReturn, jsOrZero, jsAdd, clamp, jsMin,
      jsMax, scenarioProps, min_def, max_def]
  · norm_num [handleMouseDownM, stepReturn, jsOrZero, jsAdd, jsStrictEq,
      handleChange, clamp, jsMin, jsMax, jsValueStrictEq, toJsValue,
      handleMouseUpM, scenarioProps, min_def, max_def]
  · norm_num [reportedOnIncrement, stepReturn, jsOrZero, jsAdd, clamp, jsMin,
      jsMax, scenarioProps, min_def, max_def]
  · norm_num [handleMouseDownM, stepReturn, jsOrZero, jsAdd, jsStrictEq,
      handleChange, clamp, jsMin, jsMax, jsValueStrictEq, toJsValue,
      handleMouseUpM, scenarioProps, min_def, max_def]
  · have hbound : (dir = Direction.up ∧
        jsStrictEq (stepReturn s.value
          (if dir = Direction.up then p.step else jsNeg p.step)) p.max = true) ∨
        (dir = Direction.down ∧
        jsStrictEq (stepReturn s.value
          (if dir = Direction.up then p.step else jsNeg p.step)) p.min = true) := by
      rcases h with ⟨hd, hv⟩ | ⟨hd, hv⟩
      · subst hd; left; exact ⟨rfl, by simpa using hv⟩
      · subst hd; right; exact ⟨rfl, by simpa using hv⟩
    dsimp only [handleMouseDownM]
    rw [if_pos hbound]
    exact ⟨rfl, rfl⟩

/-- C5 witness: the bound-stop conjunct applied at the concrete scenario
input (increment press at value 9 in range `[0, 10]`): the press lands
exactly on max and leaves no repeat timer running. -/
theorem increment_bound_stop_witness :
    (handleMouseDownM scenarioProps .up ⟨some (.num 9), true, 1⟩).cancelRepeater
      = false ∧
    (handleMouseDownM scenarioProps .up ⟨some (.num 9), true, 1⟩).live = 0 := by
  have hv : jsStrictEq (stepReturn (some (.num 9)) scenarioProps.step)
      scenarioProps.max = true := by
    norm_num [stepReturn, jsOrZero, jsAdd, jsStrictEq, scenarioProps]
  have h := increment_scenario_and_bound_stop.2.2.2.2 scenarioProps Direction.up
    ⟨some (.num 9), true, 1⟩ (Or.inl ⟨rfl, hv⟩)
  simpa using h

/-- C10: at most one repeat timer is active per component at any time:
`handleMouseDown` starts a new interval only when no cancel handle is
stored (when a handle is stored, a press never increases the number of
live intervals), `handleMouseUp` invokes the stored handle and clears the
field, and along every press/release event stream from the idle initial
state the number of live interval sequences never exceeds 1 (it is 1
exactly when a handle is stored). -/
theorem single_active_repeater :
    (∀ (p : PickerProps) (dir : Direction) (s : HoldState),
      s.cancelRepeater = true → (handleMouseDownM p dir s).live ≤ s.live) ∧
    (∀ s : HoldState, (handleMouseUpM s).cancelRepeater = false ∧
      (handleMouseUpM s).live = (if s.cancelRepeater then s.live - 1 else s.live)) ∧
    (∀ (p : PickerProps) (v0 : Option JsNum) (evs : List PressEvent),
      (runEvents p ⟨v0, false, 0⟩ evs).live
          = (if (runEvents p ⟨v0, false, 0⟩ evs).cancelRepeater then 1 else 0) ∧
      (runEvents p ⟨v0, false, 0⟩ evs).live ≤ 1) := by
  refine ⟨fun p dir s hc => ?_, fun s => ⟨rfl, rfl⟩, fun p v0 evs => ?_⟩
  · rcases handleMouseDownM_shape p dir s with ⟨_, hl⟩ | ⟨hs, _, _⟩ | ⟨_, hl⟩
    · rw [hl, hc]
      simp
    · rw [hs] at hc
      exact absurd hc (by simp)
    · rw [hl]
  · have h := runEvents_preserves p evs ⟨v0, false, 0⟩ rfl
    refine ⟨h, ?_⟩
    rw [h]
    split <;> simp

/-- C10 witness: a second press while a hold gesture is active (handle
stored, one live interval) does not create a second concurrent timer. -/
theorem single_active_repeater_witness :
    HoldState.cancelRepeater ⟨some (.num 5), true, 1⟩ = true ∧
    (handleMouseDownM scenarioProps .up ⟨some (.num 5), true, 1⟩).live ≤ 1 :=
  ⟨rfl, single_active_repeater.1 scenarioProps .up ⟨some (.num 5), true, 1⟩ rfl⟩

end NumberPicker
